import Mathlib

/-!
Shallow embedding of the `gateio` exchange adapter (src/js/gateio.js) of the
ccmtx/ccxt repository.  JavaScript numbers are modelled as exact rationals
(`ℚ`), missing / `undefined` values as `Option`, and thrown exceptions as
`Except`.  External collaborators from the exchange base class (which is not
part of the source under review) are either passed as parameters (HMAC) or
modelled from the specification, as noted in the doc comments.
-/

namespace Gateio

/-- The canonical error classes imported at the top of gateio.js from
`./base/errors`, plus `AuthenticationError` (raised by the base class'
`checkRequiredCredentials`) and `JsTypeError`, which models a raw JavaScript
`TypeError` thrown when the code dereferences `undefined`. -/
inductive CcxtErr where
  | ExchangeError (msg : String)
  | InvalidAddress (msg : String)
  | OrderNotFound (msg : String)
  | NotSupported (msg : String)
  | DDoSProtection (msg : String)
  | InsufficientFunds (msg : String)
  | AuthenticationError (msg : String)
  | JsTypeError (msg : String)
deriving DecidableEq, Repr

/-- The kind of a `CcxtErr`, forgetting the message. -/
inductive ErrKind where
  | ExchangeError | InvalidAddress | OrderNotFound | NotSupported
  | DDoSProtection | InsufficientFunds | AuthenticationError | JsTypeError
deriving DecidableEq, Repr

def CcxtErr.kind : CcxtErr → ErrKind
  | .ExchangeError _ => .ExchangeError
  | .InvalidAddress _ => .InvalidAddress
  | .OrderNotFound _ => .OrderNotFound
  | .NotSupported _ => .NotSupported
  | .DDoSProtection _ => .DDoSProtection
  | .InsufficientFunds _ => .InsufficientFunds
  | .AuthenticationError _ => .AuthenticationError
  | .JsTypeError _ => .JsTypeError

/-! ### Executable string operations

Lean's built-in `String.splitOn`, `String.toUpper`, `String.toNat?` and
`String.replace` do not reduce inside the kernel, so the JavaScript string
built-ins the source uses (`split`, `toUpperCase`, numeric coercion,
placeholder substitution) are given equivalent executable definitions over
the character list of a string. -/

/-- Worker for `strSplitOn`: splits `l` at each occurrence of the non-empty
separator `sep`, accumulating the current chunk in `acc` (kept reversed).
`fuel` is an upper bound on the number of steps (each step consumes at least
one character), making the recursion structural. -/
def splitOnCharsAux (sep : List Char) : ℕ → List Char → List Char → List (List Char)
  | _, [], acc => [acc.reverse]
  | 0, l, acc => [acc.reverse ++ l]
  | fuel + 1, c :: rest, acc =>
    if sep.isPrefixOf (c :: rest) then
      acc.reverse :: splitOnCharsAux sep fuel ((c :: rest).drop sep.length) []
    else
      splitOnCharsAux sep fuel rest (c :: acc)

/-- The JavaScript `s.split (sep)` for a non-empty separator (which agrees
with Lean's `String.splitOn`): the chunks of `s` between occurrences of
`sep`. -/
def strSplitOn (s sep : String) : List String :=
  if sep.data.isEmpty then [s]
  else (splitOnCharsAux sep.data (s.data.length + 1) s.data []).map String.mk

/-- The JavaScript `s.toUpperCase ()` on ASCII data. -/
def strToUpper (s : String) : String := String.mk (s.data.map Char.toUpper)

/-- The decimal value of an ASCII digit. -/
def digitVal? (c : Char) : Option ℕ :=
  if '0' ≤ c ∧ c ≤ '9' then some (c.toNat - '0'.toNat) else none

/-- Parsing a non-empty all-digit string as a natural number (agrees with
Lean's `String.toNat?`). -/
def strToNat? (s : String) : Option ℕ :=
  if s.data.isEmpty then none
  else s.data.foldl (fun acc c =>
    match acc, digitVal? c with
    | some n, some d => some (n * 10 + d)
    | _, _ => none) (some 0)

/-- Substitution of every occurrence of `pat` in `s` by `repl`. -/
def strReplace (s pat repl : String) : String :=
  String.intercalate repl (strSplitOn s pat)

/-- The `exceptions` table of `describe ()` (gateio.js lines 83-92): maps an
exchange error code to the constructor of the canonical error that
`handleErrors` throws. -/
def exceptions (code : String) : Option (String → CcxtErr) :=
  match code with
  | "4" => some CcxtErr.DDoSProtection
  | "7" => some CcxtErr.NotSupported
  | "8" => some CcxtErr.NotSupported
  | "9" => some CcxtErr.NotSupported
  | "15" => some CcxtErr.DDoSProtection
  | "16" => some CcxtErr.OrderNotFound
  | "17" => some CcxtErr.OrderNotFound
  | "21" => some CcxtErr.InsufficientFunds
  | _ => none

/-- The `errorCodeNames` table of `describe ()` (gateio.js lines 94-116):
static per-code human readable descriptions. -/
def errorCodeNames (code : String) : Option String :=
  match code with
  | "1" => some "Invalid request"
  | "2" => some "Invalid version"
  | "3" => some "Invalid request"
  | "4" => some "Too many attempts"
  | "5" => some "Invalid sign"
  | "6" => some "Invalid sign"
  | "7" => some "Currency is not supported"
  | "8" => some "Currency is not supported"
  | "9" => some "Currency is not supported"
  | "10" => some "Verified failed"
  | "11" => some "Obtaining address failed"
  | "12" => some "Empty params"
  | "13" => some "Internal error, please report to administrator"
  | "14" => some "Invalid user"
  | "15" => some "Cancel order too fast, please wait 1 min and try again"
  | "16" => some "Invalid order id or order is already closed"
  | "17" => some "Invalid orderid"
  | "18" => some "Invalid amount"
  | "19" => some "Not permitted or trade is disabled"
  | "20" => some "Your order size is too small"
  | "21" => some "You don\x27t have enough fund"
  | _ => none

/-- Result of `JSON.parse` on a response body, restricted to the three fields
`handleErrors` reads.  `safeString` of the base class yields the field's value
when it is present as a string and the default otherwise, so each field is an
`Option String`. -/
structure ParsedBody where
  result : Option String
  code : Option String
  message : Option String
deriving DecidableEq, Repr

/-- `safeString (obj, key, default)` of the base class: the field's string
value when present, the default otherwise. -/
def safeStringD (v : Option String) (d : String) : String := v.getD d

/-- `handleErrors` (gateio.js lines 259-285).  `parse` stands for `JSON.parse`
(a JavaScript built-in): it is only consulted when the body is non-empty and
starts with an opening brace.  `Except.ok ()` models falling through without
throwing. -/
def handleErrors (parse : String → ParsedBody) (body : String) :
    Except CcxtErr Unit :=
  if body.length ≤ 0 then .ok ()
  else if body.get? 0 ≠ some '\x7b' then .ok ()
  else
    let jsonbodyParsed := parse body
    let resultString := safeStringD jsonbodyParsed.result ""
    if resultString ≠ "false" then .ok ()
    else
      match jsonbodyParsed.code with
      | none => .ok ()
      | some errorCode =>
        match exceptions errorCode with
        | none => .ok ()
        | some ctor =>
          let message :=
            match errorCodeNames errorCode with
            | some m => m
            | none => safeStringD jsonbodyParsed.message "(unknown)"
          .error (ctor message)

/-! ### Trade normalizers -/

/-- Days from 1970-01-01 to year `y`, month `mo`, day `d` of the proleptic
Gregorian calendar (the standard civil-calendar algorithm), for years ≥ 1. -/
def daysFromCivil (y mo d : ℕ) : ℤ :=
  let y' := if mo ≤ 2 then y - 1 else y
  let era := y' / 400
  let yoe := y' % 400
  let doy := (153 * (if 2 < mo then mo - 3 else mo + 9) + 2) / 5 + (d - 1)
  let doe := yoe * 365 + yoe / 4 - yoe / 100 + doy
  (era * 146097 + doe : ℤ) - 719468

/-- Modelled from the spec: the base class collaborator `parse8601`, which is
not under src/.  Per §4.2 it performs a naive parse of the exchange's
ISO-like local date string "YYYY-MM-DD hh:mm:ss" into milliseconds, with no
timezone adjustment of its own.  Returns `none` (JS `undefined`) when the
string does not have that shape. -/
def parse8601 (s : String) : Option ℤ :=
  match strSplitOn s " " with
  | [datePart, timePart] =>
    match strSplitOn datePart "-", strSplitOn timePart ":" with
    | [ys, mos, ds], [hs, mins, ss] =>
      match strToNat? ys, strToNat? mos, strToNat? ds, strToNat? hs, strToNat? mins, strToNat? ss with
      | some y, some mo, some d, some h, some mi, some sec =>
        some (daysFromCivil y mo d * 86400000 + (h * 3600 + mi * 60 + sec) * 1000)
      | _, _, _, _, _, _ => none
    | _, _ => none
  | _ => none

/-- A raw trade record as consumed by `parseTrade` / `parseMyTrade`:
`date` is the exchange-reported local date string, `time_unix` the raw
unix-seconds field (already converted to a number by the unary `+`),
`type` carries the side. -/
structure RawTrade where
  tradeID : String
  orderNumber : String
  date : String
  time_unix : Option ℤ
  type : String
  rate : Option ℚ
  amount : Option ℚ
deriving DecidableEq, Repr

/-- A normalized trade.  `timestamp` is `none` when the JavaScript value would
be `NaN` (arithmetic on `undefined`). -/
structure Trade where
  id : String
  order : Option String
  timestamp : Option ℤ
  symbol : String
  side : String
  price : Option ℚ
  amount : Option ℚ
deriving DecidableEq, Repr

/-- `parseTrade` (gateio.js lines 320-334): the public-trade normalizer.
The exchange reports local time (UTC+8), so the parsed date is shifted back by
8 h = 28800000 ms; `undefined - 28800000` is `NaN`, modelled as `none`. -/
def parseTrade (marketSymbol : String) (trade : RawTrade) : Trade :=
  let timestamp := (parse8601 trade.date).map (fun t => t - 8 * 60 * 60 * 1000)
  { id := trade.tradeID
    order := none
    timestamp := timestamp
    symbol := marketSymbol
    side := trade.type
    price := trade.rate
    amount := trade.amount }

/-- `parseMyTrade` (gateio.js lines 336-350): the authenticated-trade
normalizer.  `ts = +trade['time_unix'] * 1000`, with no timezone shift. -/
def parseMyTrade (marketSymbol : String) (trade : RawTrade) : Trade :=
  let ts := trade.time_unix.map (fun u => u * 1000)
  { id := trade.tradeID
    order := some trade.orderNumber
    timestamp := ts
    symbol := marketSymbol
    side := trade.type
    price := trade.rate
    amount := trade.amount }

/-! ### Market catalog builder -/

/-- A raw pair record of the `marketinfo` response.  In the JSON each list
element is a one-key object `{ "<id>": details }`; `fetchMarkets` takes `id`
as the first key and `details` as its value, which the flat record models
directly. -/
structure RawPair where
  id : String
  decimal_places : ℕ
  min_amount : ℚ
  fee : ℚ
deriving DecidableEq, Repr

/-- A min/max limit pair; `none` is the JS `undefined`. -/
structure MinMax where
  min : Option ℚ
  max : Option ℚ
deriving DecidableEq, Repr

structure MarketPrecision where
  amount : ℕ
  price : ℕ
deriving DecidableEq, Repr

structure MarketLimits where
  amount : MinMax
  price : MinMax
  cost : MinMax
deriving DecidableEq, Repr

/-- A normalized market record (the shape pushed onto `result` in
`fetchMarkets`, minus the raw `info` passthrough). -/
structure Market where
  id : String
  symbol : String
  base : String
  quote : String
  maker : ℚ
  taker : ℚ
  precision : MarketPrecision
  limits : MarketLimits
deriving DecidableEq, Repr

/-- The `options.limits.cost.min` per-quote-currency table of `describe ()`
(gateio.js lines 117-127). -/
def costMinTable (quote : String) : Option ℚ :=
  match quote with
  | "BTC" => some (1 / 10000)
  | "ETH" => some (1 / 1000)
  | "USDT" => some 1
  | _ => none

/-- The loop body of `fetchMarkets` (gateio.js lines 137-182) for one pair
record.  `ccc` is the base class' `commonCurrencyCode` collaborator (currency
code canonicalization).  When the pair id has no "_" the JS destructuring
leaves `quote` undefined and `quote.toUpperCase ()` throws a `TypeError`. -/
def parseMarket (ccc : String → String) (p : RawPair) : Except CcxtErr Market :=
  match strSplitOn p.id "_" with
  | baseId :: quoteId :: _ =>
    let base := ccc (strToUpper baseId)
    let quote := ccc (strToUpper quoteId)
    let symbol := base ++ "/" ++ quote
    let priceMin : ℚ := 1 / 10 ^ p.decimal_places
    let defaultCost : ℚ := p.min_amount * priceMin
    let minCost : ℚ := (costMinTable quote).getD defaultCost
    .ok { id := p.id
          symbol := symbol
          base := base
          quote := quote
          maker := p.fee / 100
          taker := p.fee / 100
          precision := { amount := 8, price := p.decimal_places }
          limits := { amount := { min := some p.min_amount, max := none }
                      price := { min := some priceMin, max := none }
                      cost := { min := some minCost, max := none } } }
  | _ => .error (.JsTypeError "Cannot read property toUpperCase of undefined")

/-- `fetchMarkets` (gateio.js lines 131-184).  `pairs = none` models a
response whose `pairs` field is absent or falsy (`safeValue` then yields
`undefined`, or the field itself is falsy), in which case the method throws
`ExchangeError` before looking at any record. -/
def fetchMarkets (ccc : String → String) (pairs : Option (List RawPair)) :
    Except CcxtErr (List Market) :=
  match pairs with
  | none => .error (.ExchangeError "gateio fetchMarkets got an unrecognized response")
  | some markets => markets.mapM (parseMarket ccc)

/-! ### Ticker normalizer -/

/-- The raw ticker fields `parseTicker` reads, each already passed through
`safeFloat` (present-and-numeric yields `some`). -/
structure RawTicker where
  last : Option ℚ
  percentChange : Option ℚ
  high24hr : Option ℚ
  low24hr : Option ℚ
  highestBid : Option ℚ
  lowestAsk : Option ℚ
  baseVolume : Option ℚ
  quoteVolume : Option ℚ
deriving DecidableEq, Repr

/-- A normalized ticker (capture timestamp and datetime omitted: they come
from the wall clock, not from the record).  `openPrice` stands for the
source's `open` field, which is a reserved word in Lean. -/
structure Ticker where
  symbol : Option String
  high : Option ℚ
  low : Option ℚ
  bid : Option ℚ
  ask : Option ℚ
  openPrice : Option ℚ
  close : Option ℚ
  last : Option ℚ
  change : Option ℚ
  percentage : Option ℚ
  average : Option ℚ
  baseVolume : Option ℚ
  quoteVolume : Option ℚ
deriving DecidableEq, Repr

/-- `parseTicker` (gateio.js lines 219-257).  `open`, `change` and `average`
are derived only when both `last` and `percentChange` are defined; note the
deliberate swap of `baseVolume` / `quoteVolume`. -/
def parseTicker (ticker : RawTicker) (market : Option Market) : Ticker :=
  let symbol := market.map (·.symbol)
  let last := ticker.last
  let percentage := ticker.percentChange
  let oca : Option ℚ × Option ℚ × Option ℚ :=
    match last, percentage with
    | some l, some p =>
      let relativeChange := p / 100
      let o := l / (1 + relativeChange)
      (some o, some (l - o), some ((l + o) / 2))
    | _, _ => (none, none, none)
  { symbol := symbol
    high := ticker.high24hr
    low := ticker.low24hr
    bid := ticker.highestBid
    ask := ticker.lowestAsk
    openPrice := oca.1
    close := last
    last := last
    change := oca.2.1
    percentage := percentage
    average := oca.2.2
    baseVolume := ticker.quoteVolume
    quoteVolume := ticker.baseVolume }

/-! ### Order normalizer -/

/-- The raw order fields `parseOrder` reads, numeric ones already through
`safeFloat` / `safeInteger`.  `type` carries the side. -/
structure RawOrder where
  orderNumber : String
  timestamp : Option ℤ
  status : String
  type : String
  initialAmount : Option ℚ
  amount : Option ℚ
  initialRate : Option ℚ
  rate : Option ℚ
  filledAmount : Option ℚ
  filledRate : Option ℚ
  feePercentage : Option ℚ
deriving DecidableEq, Repr

/-- The derived fee record: `currency` is the market's base currency, `value`
is `amount * feePercentage / 100` (`none` models the `NaN` arising when
`amount` is undefined). -/
structure Fee where
  currency : String
  value : Option ℚ
deriving DecidableEq, Repr

/-- A normalized order (without the raw `info` passthrough; `type` is always
the literal "limit" in the source and is omitted). -/
structure Order where
  id : String
  timestamp : Option ℤ
  status : String
  symbol : String
  side : String
  price : Option ℚ
  amount : Option ℚ
  filled : Option ℚ
  average : Option ℚ
  remaining : Option ℚ
  fee : Option Fee
deriving DecidableEq, Repr

/-- JavaScript truthiness of a number-or-undefined: `undefined`, `0` and `NaN`
are falsy. -/
def jsTruthyNum (v : Option ℚ) : Bool :=
  match v with
  | none => false
  | some x => x ≠ 0

/-- `parseOrder` (gateio.js lines 381-414).  `amount` prefers
`initialAmount`, falling back to `amount` when the former is falsy
(absent or zero); `price` likewise prefers `initialRate` over `rate`.
`remaining = amount - filled` is `NaN` (here `none`) when either operand is
undefined.  The fee is built only when `feePercentage` is truthy, and is
denominated in the market's base currency regardless of side. -/
def parseOrder (market : Market) (order : RawOrder) : Order :=
  let timestamp := order.timestamp.map (· * 1000)
  let amount := if jsTruthyNum order.initialAmount then order.initialAmount else order.amount
  let price := if jsTruthyNum order.initialRate then order.initialRate else order.rate
  let filled := order.filledAmount
  let feePercentage := order.feePercentage
  let remaining : Option ℚ :=
    match amount, filled with
    | some a, some f => some (a - f)
    | _, _ => none
  let fee : Option Fee :=
    if jsTruthyNum feePercentage then
      some { currency := market.base
             value :=
               match amount, feePercentage with
               | some a, some fp => some (a * fp / 100)
               | _, _ => none }
    else none
  { id := order.orderNumber
    timestamp := timestamp
    status := order.status
    symbol := market.symbol
    side := order.type
    price := price
    amount := amount
    filled := filled
    average := order.filledRate
    remaining := remaining
    fee := fee }

/-! ### Deposit-address lookup -/

/-- Whether `pat` occurs as a substring of `s` (the JS
`s.indexOf (pat) >= 0`). -/
def hasSubstr (s pat : String) : Bool := (strSplitOn s pat).length ≠ 1

/-- A normalized deposit-address result (`currency` / raw `info` passthroughs
omitted). -/
structure DepositAddress where
  address : Option String
  tag : Option String
  status : String
deriving DecidableEq, Repr

/-- `queryDepositAddress` (gateio.js lines 453-476), after the transport has
produced the response: `addr` is `safeString (response, 'addr')`, `code` the
canonical currency code of the call.  A defined address containing the
substring "address" raises `InvalidAddress`; for "XRP" the value is split on
"/" with limit 2 into address and tag (when the address is undefined the JS
`address.split` throws a `TypeError`).  Status is "ok" exactly when the final
address is defined. -/
def queryDepositAddress (code : String) (addr : Option String) :
    Except CcxtErr DepositAddress :=
  match addr with
  | some a =>
    if hasSubstr a "address" then
      .error (.InvalidAddress ("gateio queryDepositAddress " ++ a))
    else if code = "XRP" then
      let parts := (strSplitOn a "/").take 2
      .ok { address := parts.get? 0, tag := parts.get? 1, status := "ok" }
    else
      .ok { address := some a, tag := none, status := "ok" }
  | none =>
    if code = "XRP" then
      .error (.JsTypeError "Cannot read property split of undefined")
    else
      .ok { address := none, tag := none, status := "none" }

/-! ### Request signer -/

/-- Modelled from the spec: the base class collaborator `urlencode`, the
"URL-encoded form" of a parameter map (§6 wire formats), `k=v` pairs joined
with `&` (percent-escaping of reserved characters is not modelled). -/
def urlencode (params : List (String × String)) : String :=
  String.intercalate "&" (params.map (fun p => p.1 ++ "=" ++ p.2))

/-- Modelled from the spec: the base class collaborator `extractParams`,
returning the placeholder names appearing as "\x7bname\x7d" in an endpoint
path (§6: paths take positional placeholders). -/
def extractParams (path : String) : List String :=
  ((strSplitOn path "\x7b").drop 1).filterMap (fun chunk =>
    match strSplitOn chunk "\x7d" with
    | name :: _ :: _ => some name
    | _ => none)

/-- Modelled from the spec: the base class collaborator `implodeParams`,
substituting each "\x7bkey\x7d" placeholder in the path with the parameter's
value (§6). -/
def implodeParams (path : String) (params : List (String × String)) : String :=
  params.foldl (fun acc p => strReplace acc ("\x7b" ++ p.1 ++ "\x7d") p.2) path

/-- The base class collaborator `omit` (a reserved word in Lean): the
parameter map minus the given keys. -/
def omitKeys (params : List (String × String)) (keys : List String) :
    List (String × String) :=
  params.filter (fun p => ¬ keys.contains p.1)

/-- The request descriptor returned by `sign`: `body` and `headers` stay
`none` (JS `undefined`) on the public branch. -/
structure SignedRequest where
  url : String
  method : String
  body : Option String
  headers : Option (List (String × String))
deriving DecidableEq, Repr

/-- `urls.api.public` / `urls.api.private` of `describe ()`: both point at
the same host. -/
def apiUrl (_api : String) : String := "https://data.gate.io/api"

/-- The `version` field of `describe ()`. -/
def version : String := "2"

/-- `sign` (gateio.js lines 520-540).  `hmacSha512Hex secret msg` stands for
the base class' `hmac (encode msg, encode secret, 'sha512')`, the hex-encoded
HMAC-SHA512 of `msg` keyed by `secret`; `nonce` for `this.nonce ()` (current
milliseconds).  Credentials are `none` when unset; the base class'
`checkRequiredCredentials` throws `AuthenticationError` when either is
missing (modelled from the spec: that collaborator is not under src/). -/
def sign (hmacSha512Hex : String → String → String) (apiKey secret : Option String)
    (nonce : ℕ) (path : String) (api : String) (method : String)
    (params : List (String × String)) : Except CcxtErr SignedRequest :=
  let pathPrefix := if api = "private" then api ++ "/" else ""
  let url := apiUrl api ++ version ++ "/1/" ++ pathPrefix ++ implodeParams path params
  let query := omitKeys params (extractParams path)
  if api = "public" then
    let url := if query.length ≠ 0 then url ++ "?" ++ urlencode query else url
    .ok { url := url, method := method, body := none, headers := none }
  else
    match apiKey, secret with
    | some key, some sec =>
      let body := urlencode (("nonce", toString nonce) :: query)
      let signature := hmacSha512Hex sec body
      .ok { url := url
            method := method
            body := some body
            headers := some [("Key", key), ("Sign", signature),
                             ("Content-Type", "application/x-www-form-urlencoded")] }
    | _, _ => .error (.AuthenticationError "gateio requires apiKey and secret credentials")

/-! ### Balance normalizer -/

/-- The raw `balances` response: optional `available` / `locked` sub-maps from
raw currency code to an amount (string values already through `parseFloat`). -/
structure RawBalance where
  available : Option (List (String × ℚ))
  locked : Option (List (String × ℚ))
deriving DecidableEq, Repr

/-- First-match lookup in an association list (a JS object property read). -/
def alistLookup (m : List (String × ℚ)) (k : String) : Option ℚ :=
  (m.find? (fun p => p.1 = k)).map (·.2)

/-- A per-currency balance entry. -/
structure BalanceAccount where
  free : ℚ
  used : ℚ
  total : ℚ
deriving DecidableEq, Repr

/-- The per-currency body of the `fetchBalance` loop (gateio.js lines
191-206).  The base class collaborator `account ()` is not under src/ and is
modelled from the spec (§4.2: "default both legs to zero when absent"): it
initializes `free` and `used` to zero, each overwritten when the raw currency
code appears in the corresponding sub-map; `total` is `sum (free, used)`. -/
def balanceAccountFor (balance : RawBalance) (currency : String) : BalanceAccount :=
  let free :=
    match balance.available with
    | some m => (alistLookup m currency).getD 0
    | none => 0
  let used :=
    match balance.locked with
    | some m => (alistLookup m currency).getD 0
    | none => 0
  { free := free, used := used, total := free + used }

/-- `fetchBalance` (gateio.js lines 186-209) after the transport returned the
raw balance: one entry per currency known to the system (the keys of
`this.currencies`), keyed by the canonical code `ccc currency`. -/
def fetchBalance (ccc : String → String) (currencies : List String)
    (balance : RawBalance) : List (String × BalanceAccount) :=
  currencies.map (fun currency => (ccc currency, balanceAccountFor balance currency))

/-! ### fetchMyTrades -/

/-- Modelled from the spec: the base class collaborator `filterBySinceLimit`
(not under src/), keeping the records whose timestamp is at least `since`
(when given) and truncating to `limit` entries (when given). -/
def filterBySinceLimit (trades : List Trade) (since : Option ℤ) (limit : Option ℕ) :
    List Trade :=
  let filtered :=
    match since with
    | some s => trades.filter (fun t => match t.timestamp with
        | some ts => s ≤ ts
        | none => false)
    | none => trades
  match limit with
  | some l => filtered.take l
  | none => filtered

/-- The base class collaborator `market (symbol)`: looks the symbol up in the
loaded catalog, throwing `ExchangeError` when unknown (modelled from the
spec's market-registry contract, §6). -/
def marketBySymbol (markets : List Market) (symbol : String) :
    Except CcxtErr Market :=
  match markets.find? (fun m => m.symbol = symbol) with
  | some m => .ok m
  | none => .error (.ExchangeError ("gateio does not have market symbol " ++ symbol))

/-- The earlier, shadowed `fetchMyTrades` definition (gateio.js lines
416-424): no symbol guard; `this.market (undefined)` is reached, and the
normalizer applied is `parseMyTrade`. -/
def fetchMyTrades_v1 (markets : List Market) (symbol : Option String)
    (since : Option ℤ) (limit : Option ℕ) (trades : List RawTrade) :
    Except CcxtErr (List Trade) :=
  match symbol with
  | none => .error (.ExchangeError "gateio does not have market symbol undefined")
  | some s => do
    let market ← marketBySymbol markets s
    let result := trades.map (parseMyTrade market.symbol)
    let sorted := result.mergeSort (fun a b =>
      (a.timestamp.getD 0) ≤ (b.timestamp.getD 0))
    return filterBySinceLimit sorted since limit

/-- The effective `fetchMyTrades` (gateio.js lines 496-504): the second of
the two class-body definitions of that name, which overrides the first under
JavaScript class semantics.  It throws `ExchangeError` when called without a
symbol, before any request is issued (`trades` stands for the
`response['trades']` list the transport would return).  Note it hands the
records to the generic `parseTrades`, i.e. to `parseTrade`. -/
def fetchMyTrades (markets : List Market) (symbol : Option String)
    (since : Option ℤ) (limit : Option ℕ) (trades : List RawTrade) :
    Except CcxtErr (List Trade) :=
  match symbol with
  | none => .error (.ExchangeError "gateio fetchMyTrades requires symbol param")
  | some s => do
    let market ← marketBySymbol markets s
    let result := trades.map (parseTrade market.symbol)
    return filterBySinceLimit result since limit

/-! ## Theorems -/

/-- C1: a public trade with a parseable date string is normalized to the
naive parse of the date minus exactly 28800000 ms; an authenticated trade is
normalized by `parseMyTrade` to `time_unix * 1000` with no correction; hence
for the same nominal exchange time the two normalizers differ by exactly
28800000 ms. -/
theorem trade_timestamp_asymmetry (sym : String) (pub myt : RawTrade) (t u : ℤ)
    (hp : parse8601 pub.date = some t)
    (hu : myt.time_unix = some u) :
    (parseTrade sym pub).timestamp = some (t - 28800000) ∧
    (parseMyTrade sym myt).timestamp = some (u * 1000) ∧
    (u * 1000 = t →
      (parseMyTrade sym myt).timestamp.getD 0 -
        (parseTrade sym pub).timestamp.getD 0 = 28800000) := by
  refine ⟨?_, ?_, ?_⟩
  · simp [parseTrade, hp]
  · simp [parseMyTrade, hu]
  · intro hsame
    simp [parseTrade, parseMyTrade, hp, hu, hsame]

/-- Witness for C1 at a concrete record: date "2018-04-11 15:27:54" parses to
1523460474000 ms, the public timestamp is 28800000 ms earlier, the private one
is the raw unix seconds times 1000, and they differ by 28800000. -/
theorem trade_timestamp_asymmetry_witness :
    (parseTrade "BTC/USDT"
      { tradeID := "1", orderNumber := "9", date := "2018-04-11 15:27:54",
        time_unix := none, type := "buy", rate := some 5, amount := some 2 }).timestamp =
      some (1523460474000 - 28800000) ∧
    (parseMyTrade "BTC/USDT"
      { tradeID := "2", orderNumber := "9", date := "",
        time_unix := some 1523460474, type := "sell", rate := some 5,
        amount := some 2 }).timestamp = some (1523460474 * 1000) ∧
    (1523460474 * 1000 = (1523460474000 : ℤ) →
      (parseMyTrade "BTC/USDT"
        { tradeID := "2", orderNumber := "9", date := "",
          time_unix := some 1523460474, type := "sell", rate := some 5,
          amount := some 2 }).timestamp.getD 0 -
      (parseTrade "BTC/USDT"
        { tradeID := "1", orderNumber := "9", date := "2018-04-11 15:27:54",
          time_unix := none, type := "buy", rate := some 5,
          amount := some 2 }).timestamp.getD 0 = 28800000) :=
  trade_timestamp_asymmetry "BTC/USDT" _ _ 1523460474000 1523460474
    (by decide) (by decide)

/-- C2: the error classifier passes through on an empty body or a body not
starting with an opening brace; passes through when the parsed `result` field
is not the string "false"; raises the table's canonical error for a known
`code` when `result` is "false"; and never raises for a missing or
unrecognized code. -/
theorem handleErrors_classification (parse : String → ParsedBody) (body : String) :
    (body.length = 0 → handleErrors parse body = .ok ()) ∧
    (body.get? 0 ≠ some '\x7b' → handleErrors parse body = .ok ()) ∧
    ((parse body).result ≠ some "false" → handleErrors parse body = .ok ()) ∧
    (∀ c ctor, 0 < body.length → body.get? 0 = some '\x7b' →
      (parse body).result = some "false" → (parse body).code = some c →
      exceptions c = some ctor →
      ∃ msg, handleErrors parse body = .error (ctor msg)) ∧
    (((parse body).code = none ∨
        (∀ c, (parse body).code = some c → exceptions c = none)) →
      handleErrors parse body = .ok ()) := by
  refine ⟨?_, ?_, ?_, ?_, ?_⟩
  · intro h
    simp [handleErrors, h]
  · intro h
    rcases Nat.eq_zero_or_pos body.length with h0 | h0
    · simp [handleErrors, h0]
    · simp [handleErrors, Nat.not_le.mpr h0, h]
  · intro h
    rcases Nat.eq_zero_or_pos body.length with h0 | h0
    · simp [handleErrors, h0]
    · by_cases hb : body.get? 0 = some '\x7b'
      · have hr : safeStringD (parse body).result "" ≠ "false" := by
          cases hres : (parse body).result with
          | none => simp [safeStringD]
          | some s =>
            simp only [safeStringD, Option.getD_some]
            intro hcontra
            exact h (by rw [hres, hcontra])
        simp [handleErrors, Nat.not_le.mpr h0, hb, hr]
      · simp [handleErrors, Nat.not_le.mpr h0, hb]
  · intro c ctor h0 hb hres hcode hexc
    refine ⟨(match errorCodeNames c with
      | some m => m
      | none => safeStringD (parse body).message "(unknown)"), ?_⟩
    simp [handleErrors, Nat.not_le.mpr h0, hb, hres, safeStringD, hcode, hexc]
  · intro h
    rcases Nat.eq_zero_or_pos body.length with h0 | h0
    · simp [handleErrors, h0]
    · by_cases hb : body.get? 0 = some '\x7b'
      · by_cases hr : safeStringD (parse body).result "" = "false"
        · cases hcode : (parse body).code with
          | none => simp [handleErrors, Nat.not_le.mpr h0, hb, hr, hcode]
          | some c =>
            have hexc : exceptions c = none := by
              rcases h with h | h
              · rw [h] at hcode; exact absurd hcode (by simp)
              · exact h c hcode
            simp [handleErrors, Nat.not_le.mpr h0, hb, hr, hcode, hexc]
        · simp [handleErrors, Nat.not_le.mpr h0, hb, hr]
      · simp [handleErrors, Nat.not_le.mpr h0, hb]

/-- Witness for C2: the body of the spec's test vector, with `result` "false"
and code "21", raises `InsufficientFunds`; concretely discharging the raising
branch of the classification theorem. -/
theorem handleErrors_classification_witness :
    ∃ msg, handleErrors
        (fun _ => { result := some "false", code := some "21", message := some "x" })
        "\x7b\"result\":\"false\",\"code\":\"21\",\"message\":\"x\"\x7d" =
      .error (CcxtErr.InsufficientFunds msg) :=
  (handleErrors_classification
      (fun _ => { result := some "false", code := some "21", message := some "x" })
      "\x7b\"result\":\"false\",\"code\":\"21\",\"message\":\"x\"\x7d").2.2.2.1
    "21" CcxtErr.InsufficientFunds (by decide) (by decide) rfl rfl rfl

/-- C3: for every pair record whose id splits on "_" into at least base and
quote parts, the emitted market has symbol = base ++ "/" ++ quote (after
uppercasing and canonicalization via `ccc`), precision.price equal to the
record's decimal_places, limits.price.min = 10^(-decimal_places), and
limits.cost.min equal to the per-quote table entry when present, else
min_amount * 10^(-decimal_places). -/
theorem parseMarket_fields (ccc : String → String) (p : RawPair)
    (baseId quoteId : String) (rest : List String)
    (hsplit : strSplitOn p.id "_" = baseId :: quoteId :: rest) :
    ∃ m, parseMarket ccc p = .ok m ∧
      m.base = ccc (strToUpper baseId) ∧
      m.quote = ccc (strToUpper quoteId) ∧
      m.symbol = m.base ++ "/" ++ m.quote ∧
      m.precision.price = p.decimal_places ∧
      m.limits.price.min = some (1 / 10 ^ p.decimal_places) ∧
      (∀ c, costMinTable m.quote = some c → m.limits.cost.min = some c) ∧
      (costMinTable m.quote = none →
        m.limits.cost.min = some (p.min_amount * (1 / 10 ^ p.decimal_places))) := by
  simp only [parseMarket, hsplit]
  refine ⟨_, rfl, rfl, rfl, rfl, rfl, rfl, ?_, ?_⟩
  · intro c hc
    simp only at hc
    simp [hc]
  · intro hc
    simp only at hc
    simp [hc]

/-- Witness for C3 at the concrete record id "btc_usdt" with 3 decimal
places: the market catalog builder succeeds with the stated field values. -/
theorem parseMarket_fields_witness :
    ∃ m, parseMarket id
        { id := "btc_usdt", decimal_places := 3, min_amount := 1 / 10, fee := 2 } = .ok m ∧
      m.base = id (strToUpper "btc") ∧
      m.quote = id (strToUpper "usdt") ∧
      m.symbol = m.base ++ "/" ++ m.quote ∧
      m.precision.price = 3 ∧
      m.limits.price.min = some (1 / 10 ^ 3) ∧
      (∀ c, costMinTable m.quote = some c → m.limits.cost.min = some c) ∧
      (costMinTable m.quote = none →
        m.limits.cost.min = some (1 / 10 * (1 / 10 ^ 3))) :=
  parseMarket_fields id
    { id := "btc_usdt", decimal_places := 3, min_amount := 1 / 10, fee := 2 }
    "btc" "usdt" [] (by decide)

/-- C4: fetchMarkets raises the catalog-configuration error (the spec's
canonical ConfigurationError, the code's `ExchangeError` with message
"fetchMarkets got an unrecognized response") exactly when the `pairs` field
of the response is absent or falsy, and raises no error when the field is
present (with well-formed pair ids). -/
theorem fetchMarkets_unrecognized_response (ccc : String → String)
    (pairs : Option (List RawPair)) :
    (pairs = none →
      fetchMarkets ccc pairs =
        .error (.ExchangeError "gateio fetchMarkets got an unrecognized response")) ∧
    (∀ l, pairs = some l →
      (∀ p ∈ l, 2 ≤ (strSplitOn p.id "_").length) →
      ∃ ms, fetchMarkets ccc pairs = .ok ms) := by
  constructor
  · intro h
    simp [fetchMarkets, h]
  · intro l hl hwf
    subst hl
    simp only [fetchMarkets]
    induction l with
    | nil => exact ⟨[], rfl⟩
    | cons p t ih =>
      obtain ⟨ms, hms⟩ := ih (fun q hq => hwf q (List.mem_cons_of_mem p hq))
      have hp := hwf p (List.mem_cons_self p t)
      cases hres : parseMarket ccc p with
      | ok m => exact ⟨m :: ms, by rw [List.mapM_cons, hres, hms]; rfl⟩
      | error e =>
        exfalso
        cases hsplit : strSplitOn p.id "_" with
        | nil => rw [hsplit] at hp; simp at hp
        | cons a t' =>
          cases t' with
          | nil => rw [hsplit] at hp; simp at hp
          | cons b t'' =>
            simp only [parseMarket, hsplit] at hres
            exact absurd hres (by simp)

/-- Witness for C4: the absent-pairs response raises the error, and a
one-record response with a well-formed id raises none. -/
theorem fetchMarkets_unrecognized_response_witness :
    (fetchMarkets id (none : Option (List RawPair)) =
      .error (.ExchangeError "gateio fetchMarkets got an unrecognized response")) ∧
    (∃ ms, fetchMarkets id
      (some [{ id := "btc_usdt", decimal_places := 3, min_amount := 1 / 10, fee := 2 }]) =
      .ok ms) :=
  ⟨(fetchMarkets_unrecognized_response id none).1 rfl,
   (fetchMarkets_unrecognized_response id
      (some [{ id := "btc_usdt", decimal_places := 3, min_amount := 1 / 10, fee := 2 }])).2
      _ rfl (by decide)⟩

/-- C5: the ticker's open/change/average are defined iff both `last` and
`percentChange` are defined; when defined, open = last / (1 + pc/100),
change = last - open and average = (last + open) / 2; when `percentChange`
is missing they are all the undefined sentinel while last and close carry the
raw last value. -/
theorem parseTicker_derived_fields (t : RawTicker) (mkt : Option Market) :
    (((parseTicker t mkt).openPrice.isSome ∧ (parseTicker t mkt).change.isSome ∧
        (parseTicker t mkt).average.isSome) ↔
      (t.last.isSome ∧ t.percentChange.isSome)) ∧
    (∀ l p, t.last = some l → t.percentChange = some p →
      (parseTicker t mkt).openPrice = some (l / (1 + p / 100)) ∧
      (parseTicker t mkt).change = some (l - l / (1 + p / 100)) ∧
      (parseTicker t mkt).average = some ((l + l / (1 + p / 100)) / 2)) ∧
    (t.percentChange = none →
      (parseTicker t mkt).openPrice = none ∧
      (parseTicker t mkt).change = none ∧
      (parseTicker t mkt).average = none ∧
      (parseTicker t mkt).last = t.last ∧
      (parseTicker t mkt).close = t.last) := by
  refine ⟨?_, ?_, ?_⟩
  · cases hl : t.last with
    | none => simp [parseTicker, hl]
    | some l =>
      cases hp : t.percentChange with
      | none => simp [parseTicker, hl, hp]
      | some p => simp [parseTicker, hl, hp]
  · intro l p hl hp
    simp [parseTicker, hl, hp]
  · intro hp
    cases hl : t.last with
    | none => simp [parseTicker, hl, hp]
    | some l => simp [parseTicker, hl, hp]

/-- Witness for C5 at the spec's test vector last = 100, percentChange = 10:
open = 1000/11, change = 100/11, average = 1050/11 (the exact values of
100/1.1, 100 - 100/1.1 and (100 + 100/1.1)/2). -/
theorem parseTicker_derived_fields_witness :
    (parseTicker
      { last := some 100, percentChange := some 10, high24hr := none,
        low24hr := none, highestBid := none, lowestAsk := none,
        baseVolume := none, quoteVolume := none } none).openPrice =
        some (100 / (1 + 10 / 100)) ∧
    (parseTicker
      { last := some 100, percentChange := some 10, high24hr := none,
        low24hr := none, highestBid := none, lowestAsk := none,
        baseVolume := none, quoteVolume := none } none).change =
        some (100 - 100 / (1 + 10 / 100)) ∧
    (parseTicker
      { last := some 100, percentChange := some 10, high24hr := none,
        low24hr := none, highestBid := none, lowestAsk := none,
        baseVolume := none, quoteVolume := none } none).average =
        some ((100 + 100 / (1 + 10 / 100)) / 2) :=
  (parseTicker_derived_fields
    { last := some 100, percentChange := some 10, high24hr := none,
      low24hr := none, highestBid := none, lowestAsk := none,
      baseVolume := none, quoteVolume := none } none).2.1 100 10 rfl rfl

/-- C6 counterexample: a raw order whose `feePercentage` field is present but
zero.  The claim says a present `feePercentage` always yields the fee record
`currency = base, value = amount * feePercentage / 100` (here
`some ⟨"BTC", some 0⟩`); the code's truthiness test `feePercentage ?` treats
the present zero like an absent field and leaves the fee undefined. -/
theorem parseOrder_fee_zero_counterexample :
    ({ orderNumber := "1", timestamp := some 100, status := "open",
       type := "sell", initialAmount := some 1, amount := some 1,
       initialRate := none, rate := some 3, filledAmount := some 0,
       filledRate := none, feePercentage := some 0 } : RawOrder).feePercentage =
        some 0 ∧
    (parseOrder
      { id := "btc_usdt", symbol := "BTC/USDT", base := "BTC", quote := "USDT",
        maker := 0, taker := 0, precision := { amount := 8, price := 3 },
        limits := { amount := { min := none, max := none },
                    price := { min := none, max := none },
                    cost := { min := none, max := none } } }
      { orderNumber := "1", timestamp := some 100, status := "open",
        type := "sell", initialAmount := some 1, amount := some 1,
        initialRate := none, rate := some 3, filledAmount := some 0,
        filledRate := none, feePercentage := some 0 }).fee = none ∧
    (parseOrder
      { id := "btc_usdt", symbol := "BTC/USDT", base := "BTC", quote := "USDT",
        maker := 0, taker := 0, precision := { amount := 8, price := 3 },
        limits := { amount := { min := none, max := none },
                    price := { min := none, max := none },
                    cost := { min := none, max := none } } }
      { orderNumber := "1", timestamp := some 100, status := "open",
        type := "sell", initialAmount := some 1, amount := some 1,
        initialRate := none, rate := some 3, filledAmount := some 0,
        filledRate := none, feePercentage := some 0 }).fee ≠
      some { currency := "BTC", value := some (1 * 0 / 100) } := by
  refine ⟨rfl, rfl, ?_⟩
  decide

/-- C6 (amended): remaining = amount - filled (propagating the undefined
sentinel as the JS `NaN`); amount is taken from the `initialAmount` field
when it is present and nonzero, falling back to the `amount` field when
`initialAmount` is zero or absent, and price likewise prefers `initialRate`
over `rate`; and the fee is `currency = base,
value = amount * feePercentage / 100` when `feePercentage` is present and
nonzero, else undefined (the code treats a present zero like an absent
field). -/
theorem parseOrder_fields (mkt : Market) (o : RawOrder) :
    (∀ a f, (parseOrder mkt o).amount = some a →
      (parseOrder mkt o).filled = some f →
      (parseOrder mkt o).remaining = some (a - f)) ∧
    ((parseOrder mkt o).amount = none ∨ (parseOrder mkt o).filled = none →
      (parseOrder mkt o).remaining = none) ∧
    (∀ a, o.initialAmount = some a → a ≠ 0 →
      (parseOrder mkt o).amount = some a) ∧
    ((o.initialAmount = none ∨ o.initialAmount = some 0) →
      (parseOrder mkt o).amount = o.amount) ∧
    (∀ p, o.initialRate = some p → p ≠ 0 →
      (parseOrder mkt o).price = some p) ∧
    ((o.initialRate = none ∨ o.initialRate = some 0) →
      (parseOrder mkt o).price = o.rate) ∧
    (∀ fp, o.feePercentage = some fp → fp ≠ 0 →
      (parseOrder mkt o).fee =
        some ⟨mkt.base, (parseOrder mkt o).amount.map (fun a => a * fp / 100)⟩) ∧
    ((o.feePercentage = none ∨ o.feePercentage = some 0) →
      (parseOrder mkt o).fee = none) := by
  refine ⟨?_, ?_, ?_, ?_, ?_, ?_, ?_, ?_⟩
  · intro a f ha hf
    simp only [parseOrder] at ha hf ⊢
    rw [ha, hf]
  · intro h
    simp only [parseOrder] at h ⊢
    rcases h with h | h
    · rw [h]
    · rw [h]
      cases (if jsTruthyNum o.initialAmount then o.initialAmount else o.amount) <;> rfl
  · intro a ha hne
    have ht : jsTruthyNum o.initialAmount = true := by
      simp [jsTruthyNum, ha, hne]
    simp only [parseOrder, ht, if_true]
    exact ha
  · intro h
    have ht : jsTruthyNum o.initialAmount = false := by
      rcases h with h | h <;> simp [jsTruthyNum, h]
    simp only [parseOrder, ht, Bool.false_eq_true, if_false]
  · intro p hp hne
    have ht : jsTruthyNum o.initialRate = true := by
      simp [jsTruthyNum, hp, hne]
    simp only [parseOrder, ht, if_true]
    exact hp
  · intro h
    have ht : jsTruthyNum o.initialRate = false := by
      rcases h with h | h <;> simp [jsTruthyNum, h]
    simp only [parseOrder, ht, Bool.false_eq_true, if_false]
  · intro fp hfp hne
    have ht : jsTruthyNum o.feePercentage = true := by
      simp [jsTruthyNum, hfp, hne]
    simp only [parseOrder, ht, if_true]
    cases hA : (if jsTruthyNum o.initialAmount then o.initialAmount else o.amount) with
    | none => simp [hfp, hA]
    | some a => simp [hfp, hA]
  · intro h
    have ht : jsTruthyNum o.feePercentage = false := by
      rcases h with h | h <;> simp [jsTruthyNum, h]
    simp only [parseOrder, ht, Bool.false_eq_true, if_false]

/-- Witness for C6 (amended) at two concrete orders: with
`initialAmount = 0` and `initialRate` absent the amount falls back to
`amount = 7` and the price to `rate = 3`, `filled = 2` gives
`remaining = 5`, and the present nonzero `feePercentage = 2` yields the
base-currency fee `7 * 2 / 100`; with present nonzero `initialAmount = 5`
and `initialRate = 4` those preferred fields are used. -/
theorem parseOrder_fields_witness :
    (parseOrder
      { id := "btc_usdt", symbol := "BTC/USDT", base := "BTC", quote := "USDT",
        maker := 0, taker := 0, precision := { amount := 8, price := 3 },
        limits := { amount := { min := none, max := none },
                    price := { min := none, max := none },
                    cost := { min := none, max := none } } }
      { orderNumber := "1", timestamp := some 100, status := "open",
        type := "sell", initialAmount := some 0, amount := some 7,
        initialRate := none, rate := some 3, filledAmount := some 2,
        filledRate := none, feePercentage := some 2 }).remaining = some (7 - 2) ∧
    (parseOrder
      { id := "btc_usdt", symbol := "BTC/USDT", base := "BTC", quote := "USDT",
        maker := 0, taker := 0, precision := { amount := 8, price := 3 },
        limits := { amount := { min := none, max := none },
                    price := { min := none, max := none },
                    cost := { min := none, max := none } } }
      { orderNumber := "1", timestamp := some 100, status := "open",
        type := "sell", initialAmount := some 0, amount := some 7,
        initialRate := none, rate := some 3, filledAmount := some 2,
        filledRate := none, feePercentage := some 2 }).amount = some 7 ∧
    (parseOrder
      { id := "btc_usdt", symbol := "BTC/USDT", base := "BTC", quote := "USDT",
        maker := 0, taker := 0, precision := { amount := 8, price := 3 },
        limits := { amount := { min := none, max := none },
                    price := { min := none, max := none },
                    cost := { min := none, max := none } } }
      { orderNumber := "1", timestamp := some 100, status := "open",
        type := "sell", initialAmount := some 0, amount := some 7,
        initialRate := none, rate := some 3, filledAmount := some 2,
        filledRate := none, feePercentage := some 2 }).price = some 3 ∧
    (parseOrder
      { id := "btc_usdt", symbol := "BTC/USDT", base := "BTC", quote := "USDT",
        maker := 0, taker := 0, precision := { amount := 8, price := 3 },
        limits := { amount := { min := none, max := none },
                    price := { min := none, max := none },
                    cost := { min := none, max := none } } }
      { orderNumber := "1", timestamp := some 100, status := "open",
        type := "sell", initialAmount := some 0, amount := some 7,
        initialRate := none, rate := some 3, filledAmount := some 2,
        filledRate := none, feePercentage := some 2 }).fee =
      some { currency := "BTC", value := some (7 * 2 / 100) } ∧
    (parseOrder
      { id := "btc_usdt", symbol := "BTC/USDT", base := "BTC", quote := "USDT",
        maker := 0, taker := 0, precision := { amount := 8, price := 3 },
        limits := { amount := { min := none, max := none },
                    price := { min := none, max := none },
                    cost := { min := none, max := none } } }
      { orderNumber := "2", timestamp := some 100, status := "open",
        type := "buy", initialAmount := some 5, amount := some 7,
        initialRate := some 4, rate := some 3, filledAmount := some 2,
        filledRate := none, feePercentage := none }).amount = some 5 ∧
    (parseOrder
      { id := "btc_usdt", symbol := "BTC/USDT", base := "BTC", quote := "USDT",
        maker := 0, taker := 0, precision := { amount := 8, price := 3 },
        limits := { amount := { min := none, max := none },
                    price := { min := none, max := none },
                    cost := { min := none, max := none } } }
      { orderNumber := "2", timestamp := some 100, status := "open",
        type := "buy", initialAmount := some 5, amount := some 7,
        initialRate := some 4, rate := some 3, filledAmount := some 2,
        filledRate := none, feePercentage := none }).price = some 4 := by
  have h := parseOrder_fields
    { id := "btc_usdt", symbol := "BTC/USDT", base := "BTC", quote := "USDT",
      maker := 0, taker := 0, precision := { amount := 8, price := 3 },
      limits := { amount := { min := none, max := none },
                  price := { min := none, max := none },
                  cost := { min := none, max := none } } }
    { orderNumber := "1", timestamp := some 100, status := "open",
      type := "sell", initialAmount := some 0, amount := some 7,
      initialRate := none, rate := some 3, filledAmount := some 2,
      filledRate := none, feePercentage := some 2 }
  have h2 := parseOrder_fields
    { id := "btc_usdt", symbol := "BTC/USDT", base := "BTC", quote := "USDT",
      maker := 0, taker := 0, precision := { amount := 8, price := 3 },
      limits := { amount := { min := none, max := none },
                  price := { min := none, max := none },
                  cost := { min := none, max := none } } }
    { orderNumber := "2", timestamp := some 100, status := "open",
      type := "buy", initialAmount := some 5, amount := some 7,
      initialRate := some 4, rate := some 3, filledAmount := some 2,
      filledRate := none, feePercentage := none }
  refine ⟨h.1 7 2 (by decide) (by decide), h.2.2.2.1 (Or.inr rfl),
    h.2.2.2.2.2.1 (Or.inl rfl), ?_,
    h2.2.2.1 5 rfl (by decide), h2.2.2.2.2.1 4 rfl (by decide)⟩
  have hfee := h.2.2.2.2.2.2.1 2 rfl (by decide)
  rw [hfee, h.2.2.2.1 (Or.inr rfl)]
  rfl

/-- The split worker never returns an empty chunk list. -/
theorem splitOnCharsAux_ne_nil (sep : List Char) :
    ∀ (fuel : ℕ) (l acc : List Char), splitOnCharsAux sep fuel l acc ≠ [] := by
  intro fuel
  induction fuel with
  | zero => intro l acc; cases l <;> simp [splitOnCharsAux]
  | succ n ih =>
    intro l acc
    cases l with
    | nil => simp [splitOnCharsAux]
    | cons c rest =>
      simp only [splitOnCharsAux]
      split
      · simp
      · exact ih rest (c :: acc)

/-- Splitting a string never returns an empty list (so the first part of an
"addr/tag" split always exists). -/
theorem strSplitOn_ne_nil (s sep : String) : strSplitOn s sep ≠ [] := by
  unfold strSplitOn
  split
  · simp
  · simp [splitOnCharsAux_ne_nil]

/-- C7: a returned address containing the substring "address" raises
`InvalidAddress`; for currency code "XRP" the value is split on "/" into the
address part and the destination-tag part; and every non-raising result has
status "ok" exactly when its address is present. -/
theorem queryDepositAddress_spec (code : String) (addr : Option String) :
    (∀ a, addr = some a → hasSubstr a "address" = true →
      queryDepositAddress code addr =
        .error (.InvalidAddress ("gateio queryDepositAddress " ++ a))) ∧
    (∀ a, addr = some a → hasSubstr a "address" = false → code = "XRP" →
      queryDepositAddress code addr =
        .ok ⟨(strSplitOn a "/").head?, (strSplitOn a "/").get? 1, "ok"⟩) ∧
    (addr = none → code ≠ "XRP" →
      queryDepositAddress code addr = .ok ⟨none, none, "none"⟩) ∧
    (∀ r, queryDepositAddress code addr = .ok r →
      (r.status = "ok" ↔ r.address.isSome)) := by
  refine ⟨?_, ?_, ?_, ?_⟩
  · intro a ha hsub
    simp [queryDepositAddress, ha, hsub]
  · intro a ha hsub hcode
    subst hcode ha
    simp only [queryDepositAddress, hsub, Bool.false_eq_true, if_false, if_pos rfl]
    cases hl : strSplitOn a "/" with
    | nil => exact absurd hl (strSplitOn_ne_nil a "/")
    | cons x xs => cases xs <;> simp [hl]
  · intro ha hcode
    subst ha
    simp [queryDepositAddress, hcode]
  · intro r hr
    cases ha : addr with
    | none =>
      rw [ha] at hr
      by_cases hcode : code = "XRP"
      · simp [queryDepositAddress, hcode] at hr
      · simp only [queryDepositAddress, hcode, if_false] at hr
        cases hr
        simp
    | some a =>
      rw [ha] at hr
      by_cases hsub : hasSubstr a "address"
      · simp [queryDepositAddress, hsub] at hr
      · by_cases hcode : code = "XRP"
        · simp only [queryDepositAddress, hsub, Bool.false_eq_true, if_false,
            hcode, if_pos rfl] at hr
          cases hr
          cases hl : strSplitOn a "/" with
          | nil => exact absurd hl (strSplitOn_ne_nil a "/")
          | cons x xs => simp [hl]
        · simp only [queryDepositAddress, hsub, Bool.false_eq_true, if_false,
            hcode] at hr
          cases hr
          simp

/-- Witness for C7 at the spec's test vectors: "1xrpaddresserror" raises
`InvalidAddress`, and the XRP value "rAddr123/456" splits into address
"rAddr123" and tag "456" with status "ok". -/
theorem queryDepositAddress_spec_witness :
    queryDepositAddress "BTC" (some "1xrpaddresserror") =
      .error (.InvalidAddress "gateio queryDepositAddress 1xrpaddresserror") ∧
    queryDepositAddress "XRP" (some "rAddr123/456") =
      .ok ⟨(strSplitOn "rAddr123/456" "/").head?,
           (strSplitOn "rAddr123/456" "/").get? 1, "ok"⟩ ∧
    (strSplitOn "rAddr123/456" "/").head? = some "rAddr123" ∧
    (strSplitOn "rAddr123/456" "/").get? 1 = some "456" :=
  ⟨(queryDepositAddress_spec "BTC" (some "1xrpaddresserror")).1
      "1xrpaddresserror" rfl (by decide),
   (queryDepositAddress_spec "XRP" (some "rAddr123/456")).2.1
      "rAddr123/456" rfl (by decide) rfl,
   by decide, by decide⟩

/-- C8: a private request without credentials raises `AuthenticationError`;
with credentials the body is the URL-encoded parameter map extended with the
nonce, and the headers carry the API key as `Key`, the hex HMAC-SHA512 of the
body keyed by the secret as `Sign`, and the URL-encoded content type; a
public request appends the remaining non-path parameters to the URL as a
query string and leaves body and headers unset. -/
theorem sign_request_shape (hmac : String → String → String)
    (apiKey secret : Option String) (nonce : ℕ)
    (path api method : String) (params : List (String × String)) :
    (api = "private" → (apiKey = none ∨ secret = none) →
      ∃ msg, sign hmac apiKey secret nonce path api method params =
        .error (.AuthenticationError msg)) ∧
    (∀ k s, api = "private" → apiKey = some k → secret = some s →
      ∃ r, sign hmac apiKey secret nonce path api method params = .ok r ∧
        r.body = some (urlencode
          (("nonce", toString nonce) :: omitKeys params (extractParams path))) ∧
        r.headers = some [("Key", k),
          ("Sign", hmac s (urlencode
            (("nonce", toString nonce) :: omitKeys params (extractParams path)))),
          ("Content-Type", "application/x-www-form-urlencoded")] ∧
        r.method = method) ∧
    (api = "public" →
      ∃ r, sign hmac apiKey secret nonce path api method params = .ok r ∧
        r.body = none ∧ r.headers = none ∧ r.method = method ∧
        (omitKeys params (extractParams path) ≠ [] →
          r.url = apiUrl api ++ version ++ "/1/" ++ implodeParams path params ++
            "?" ++ urlencode (omitKeys params (extractParams path))) ∧
        (omitKeys params (extractParams path) = [] →
          r.url = apiUrl api ++ version ++ "/1/" ++ implodeParams path params)) := by
  refine ⟨?_, ?_, ?_⟩
  · intro hapi hcred
    subst hapi
    rcases hcred with h | h
    · rw [h]
      cases secret <;> exact ⟨_, rfl⟩
    · rw [h]
      cases apiKey <;> exact ⟨_, rfl⟩
  · intro k s hapi hk hs
    subst hapi hk hs
    exact ⟨_, rfl, rfl, rfl, rfl⟩
  · intro hapi
    subst hapi
    refine ⟨_, rfl, rfl, rfl, rfl, ?_, ?_⟩
    · intro hq
      rw [if_pos (by simpa using hq),
        if_neg (by decide : ¬("public" : String) = "private"), String.append_empty]
    · intro hq
      rw [if_neg (by simp [hq]),
        if_neg (by decide : ¬("public" : String) = "private"), String.append_empty]

/-- Witness for C8: a concrete private signed request (key "K", secret "S",
nonce 42) and a concrete public request with one path and one query
parameter, instantiating every branch of the signer theorem. -/
theorem sign_request_shape_witness :
    (∃ msg, sign (fun _ _ => "") none (some "S") 42 "balances" "private" "POST" [] =
      .error (.AuthenticationError msg)) ∧
    (∃ r, sign (fun s m => s ++ "|" ++ m) (some "K") (some "S") 42 "balances"
        "private" "POST" [("currencyPair", "btc_usdt")] = .ok r ∧
      r.body = some (urlencode (("nonce", toString 42) ::
        omitKeys [("currencyPair", "btc_usdt")] (extractParams "balances"))) ∧
      r.headers = some [("Key", "K"),
        ("Sign", (fun (s m : String) => s ++ "|" ++ m) "S"
          (urlencode (("nonce", toString 42) ::
            omitKeys [("currencyPair", "btc_usdt")] (extractParams "balances")))),
        ("Content-Type", "application/x-www-form-urlencoded")] ∧
      r.method = "POST") ∧
    (∃ r, sign (fun _ _ => "") none none 42 "tradeHistory/\x7bid\x7d" "public" "GET"
        [("id", "btc_usdt"), ("page", "2")] = .ok r ∧
      r.body = none ∧ r.headers = none ∧ r.method = "GET" ∧
      (omitKeys [("id", "btc_usdt"), ("page", "2")]
          (extractParams "tradeHistory/\x7bid\x7d") ≠ [] →
        r.url = apiUrl "public" ++ version ++ "/1/" ++
          implodeParams "tradeHistory/\x7bid\x7d" [("id", "btc_usdt"), ("page", "2")] ++
          "?" ++ urlencode (omitKeys [("id", "btc_usdt"), ("page", "2")]
            (extractParams "tradeHistory/\x7bid\x7d"))) ∧
      (omitKeys [("id", "btc_usdt"), ("page", "2")]
          (extractParams "tradeHistory/\x7bid\x7d") = [] →
        r.url = apiUrl "public" ++ version ++ "/1/" ++
          implodeParams "tradeHistory/\x7bid\x7d" [("id", "btc_usdt"), ("page", "2")])) :=
  ⟨(sign_request_shape (fun _ _ => "") none (some "S") 42 "balances" "private"
      "POST" []).1 rfl (Or.inl rfl),
   (sign_request_shape (fun s m => s ++ "|" ++ m) (some "K") (some "S") 42
      "balances" "private" "POST" [("currencyPair", "btc_usdt")]).2.1
      "K" "S" rfl rfl rfl,
   (sign_request_shape (fun _ _ => "") none none 42 "tradeHistory/\x7bid\x7d"
      "public" "GET" [("id", "btc_usdt"), ("page", "2")]).2.2 rfl⟩

/-- C9: every currency known to the system yields a balance entry whose free
leg is the `available` sub-map value (zero when the entry or the sub-map is
absent), whose used leg is the `locked` value likewise, and whose total is
their sum; a currency absent from both sub-maps yields the all-zero entry. -/
theorem fetchBalance_entries (ccc : String → String) (currencies : List String)
    (b : RawBalance) (c : String) (hc : c ∈ currencies) :
    (ccc c, balanceAccountFor b c) ∈ fetchBalance ccc currencies b ∧
    (balanceAccountFor b c).free = (b.available.bind (fun m => alistLookup m c)).getD 0 ∧
    (balanceAccountFor b c).used = (b.locked.bind (fun m => alistLookup m c)).getD 0 ∧
    (balanceAccountFor b c).total =
      (balanceAccountFor b c).free + (balanceAccountFor b c).used ∧
    (b.available.bind (fun m => alistLookup m c) = none →
      b.locked.bind (fun m => alistLookup m c) = none →
      balanceAccountFor b c = ⟨0, 0, 0⟩) := by
  have hdef : balanceAccountFor b c =
      ⟨(b.available.bind (fun m => alistLookup m c)).getD 0,
       (b.locked.bind (fun m => alistLookup m c)).getD 0,
       (b.available.bind (fun m => alistLookup m c)).getD 0 +
         (b.locked.bind (fun m => alistLookup m c)).getD 0⟩ := by
    unfold balanceAccountFor
    cases b.available <;> cases b.locked <;> rfl
  refine ⟨List.mem_map_of_mem _ hc, ?_, ?_, ?_, ?_⟩
  · rw [hdef]
  · rw [hdef]
  · rw [hdef]
  · intro hav hlo
    rw [hdef, hav, hlo]
    simp

/-- Witness for C9: currency "xyz" is known to the system but absent from
both sub-maps of a concrete raw balance; its entry is all zero, while the
present currency "btc" gets free = 3, used = 1, total = 4. -/
theorem fetchBalance_entries_witness :
    ((id "xyz", balanceAccountFor
      { available := some [("btc", 3)], locked := some [("btc", 1)] } "xyz") ∈
        fetchBalance id ["btc", "xyz"]
          { available := some [("btc", 3)], locked := some [("btc", 1)] }) ∧
    balanceAccountFor
      { available := some [("btc", 3)], locked := some [("btc", 1)] } "xyz" =
      ⟨0, 0, 0⟩ ∧
    balanceAccountFor
      { available := some [("btc", 3)], locked := some [("btc", 1)] } "btc" =
      ⟨3, 1, 3 + 1⟩ :=
  ⟨(fetchBalance_entries id ["btc", "xyz"]
      { available := some [("btc", 3)], locked := some [("btc", 1)] } "xyz"
      (by simp)).1,
   (fetchBalance_entries id ["btc", "xyz"]
      { available := some [("btc", 3)], locked := some [("btc", 1)] } "xyz"
      (by simp)).2.2.2.2 (by decide) (by decide),
   rfl⟩

/-- C10 (implicit): the effective `fetchMyTrades` — the second of its two
class-body definitions, which overrides the first under JavaScript semantics —
raises `ExchangeError` whenever called without a symbol, regardless of the
response the transport would have produced (i.e. before any request is
issued). -/
theorem fetchMyTrades_requires_symbol (markets : List Market) (since : Option ℤ)
    (limit : Option ℕ) (trades : List RawTrade) :
    fetchMyTrades markets none since limit trades =
      .error (.ExchangeError "gateio fetchMyTrades requires symbol param") := rfl

end Gateio
